import Mathlib

/-!
Verification of the credential lifecycle manager of the ClipsUploader
repository (`src/core/auth.py`, class `GoogleAuth`) against its
natural-language specification.

Shallow embedding conventions:
* A `Credential` mirrors the fields of `google.oauth2.credentials.Credentials`
  that the manager reads or persists (`serialize_credentials` lists them).
* The environment `Env` packages everything the process run determines
  externally: the per-process salted string hash used by Python's built-in
  `hash` (randomized by `PYTHONHASHSEED` between runs), the current time used
  by the `expired`/`valid` properties, whether the client-secret file exists
  and parses, and the outcomes of the network calls (interactive flow,
  refresh exchange, remote revocation) and of local persistence.
* `AuthState` is the manager's mutable state: the in-memory `token_cache`
  and the contents of the token directory (`disk`).  File paths are
  represented by their file name inside the fixed `token_dir`, which is a
  uniform renaming of `str(token_path)`.
* Exceptions are modelled by the branch the surrounding `try/except` takes;
  traces record the user-visible effects (`interactiveFlow` for
  `flow.run_local_server`, `refreshCall` for `credentials.refresh`).
-/

namespace ClipsUploader

/-- One delegated-access grant, mirroring the credential object fields the
manager persists (`serialize_credentials` in `core/auth.py`).  `expiry` is a
timestamp in seconds (`none` = no expiry recorded). -/
structure Credential where
  token : Option String
  refresh_token : Option String
  token_uri : String
  client_id : String
  client_secret : String
  scopes : List String
  expiry : Option Nat
  deriving DecidableEq, Repr

/-- Model of `Credentials.expired` of google-auth: true when an expiry is recorded and
it is not in the future. -/
def Credential.expired (c : Credential) (now : Nat) : Bool :=
  match c.expiry with
  | none => false
  | some e => decide (e ≤ now)

/-- Model of `Credentials.valid` of google-auth: a token is present and not expired. -/
def Credential.valid (c : Credential) (now : Nat) : Bool :=
  c.token.isSome && !(c.expired now)

/-- The serialized form written by `pickle.dump` in `_save_credentials`:
pickle round-trips every attribute of the credential object. -/
structure PickleBlob where
  b_token : Option String
  b_refresh_token : Option String
  b_token_uri : String
  b_client_id : String
  b_client_secret : String
  b_scopes : List String
  b_expiry : Option Nat
  deriving DecidableEq, Repr

def pickleDump (c : Credential) : PickleBlob :=
  ⟨c.token, c.refresh_token, c.token_uri, c.client_id, c.client_secret,
   c.scopes, c.expiry⟩

def pickleLoad (b : PickleBlob) : Credential :=
  ⟨b.b_token, b.b_refresh_token, b.b_token_uri, b.b_client_id,
   b.b_client_secret, b.b_scopes, b.b_expiry⟩

/-- User-visible effects of a manager operation. -/
inductive Effect where
  | interactiveFlow
  | refreshCall
  deriving DecidableEq, Repr

/-- Number of interactive consent flows in a trace. -/
def countFlows : List Effect → Nat
  | [] => 0
  | Effect.interactiveFlow :: tr => countFlows tr + 1
  | _ :: tr => countFlows tr

/-- Everything determined by the process run and the outside world:
Python's per-process salted string hash, the clock, the configuration file,
and the outcomes of network and storage operations. -/
structure Env where
  pyHash : String → Int
  now : Nat
  clientSecretExists : Bool
  clientSecretParses : Bool
  flowResult : Option Credential
  refreshResult : Credential → Option Credential
  revokeOk : Credential → Bool
  saveOk : Bool

/-- The manager's state: the in-memory token cache and the token directory
contents.  A `none` blob is a file `pickle.load` raises on (corrupt). -/
structure AuthState where
  token_cache : List (String × Credential)
  disk : List (String × Option PickleBlob)
  deriving Repr

/-- Association-list lookup (first entry with the key). -/
def assocGet {α : Type} (k : String) (l : List (String × α)) : Option α :=
  (l.find? (fun p => p.1 == k)).map (fun p => p.2)

/-- Association-list update: the key now maps to `v` and old entries for it
are gone. -/
def assocSet {α : Type} (k : String) (v : α) (l : List (String × α)) :
    List (String × α) :=
  (k, v) :: l.filter (fun p => p.1 != k)

/-- Association-list deletion of every entry with the key. -/
def assocDel {α : Type} (k : String) (l : List (String × α)) :
    List (String × α) :=
  l.filter (fun p => p.1 != k)

/-- Embedding of `GoogleAuth.YOUTUBE_SCOPES`. -/
def YOUTUBE_SCOPES : List String :=
  ["https://www.googleapis.com/auth/youtube.upload",
   "https://www.googleapis.com/auth/youtube"]

/-- Embedding of `GoogleAuth.SHEETS_SCOPES`. -/
def SHEETS_SCOPES : List String :=
  ["https://www.googleapis.com/auth/spreadsheets"]

/-- The scope list `list(set(self.YOUTUBE_SCOPES + self.SHEETS_SCOPES))` as computed in
`check_saved_credentials` and `get_combined_service` (order is irrelevant to
the key derivation, which sorts). -/
def combined_scopes : List String :=
  (YOUTUBE_SCOPES ++ SHEETS_SCOPES).dedup

/-- Lexicographic order on code-point sequences, Python's `<` on strings. -/
def charListLt : List Char → List Char → Bool
  | [], [] => false
  | [], _ :: _ => true
  | _ :: _, [] => false
  | a :: as, b :: bs =>
    if a < b then true else if b < a then false else charListLt as bs

/-- Python's `<=` on strings (code-point lexicographic). -/
def pyStrLe (a b : String) : Bool := !(charListLt b.data a.data)

/-- Stable insertion into a sorted list, code-point order (Python `sorted`). -/
def insertLe (x : String) : List String → List String
  | [] => [x]
  | y :: ys => if pyStrLe x y then x :: y :: ys else y :: insertLe x ys

/-- Python's `sorted` on strings (ascending code-point order). -/
def pySorted : List String → List String
  | [] => []
  | x :: xs => insertLe x (pySorted xs)

/-- The join `''.join(sorted(scopes))` from `_get_token_path`. -/
def joinScopes (scopes : List String) : String :=
  String.join (pySorted scopes)

/-- Embedding of `GoogleAuth._get_token_path`: the token file name
`token_{user_id}_{hash(''.join(sorted(scopes)))}.pickle`. -/
def get_token_path (env : Env) (scopes : List String) (user_id : String) :
    String :=
  "token_" ++ user_id ++ "_" ++ toString (env.pyHash (joinScopes scopes))
    ++ ".pickle"

/-- Embedding of `GoogleAuth._save_credentials`: on success writes the pickled blob to the
token file and also stores the credential in the in-memory cache; on a
storage error nothing is written and `False` is returned. -/
def save_credentials (env : Env) (c : Credential) (path : String)
    (s : AuthState) : Bool × AuthState :=
  if env.saveOk then
    (true, { token_cache := assocSet path c s.token_cache,
             disk := assocSet path (some (pickleDump c)) s.disk })
  else (false, s)

/-- Embedding of `GoogleAuth._load_credentials`: in-memory cache first, then the token
file, caching a successful file load; missing or corrupt files give `None`. -/
def load_credentials (path : String) (s : AuthState) :
    Option Credential × AuthState :=
  match assocGet path s.token_cache with
  | some c => (some c, s)
  | none =>
    match assocGet path s.disk with
    | some (some b) =>
        (some (pickleLoad b),
         { s with token_cache := assocSet path (pickleLoad b) s.token_cache })
    | some none => (none, s)
    | none => (none, s)

/-- Result of `get_credentials`: the returned credential (`None` on
failure), the manager state afterwards, and the effect trace. -/
structure AcquireResult where
  creds : Option Credential
  state : AuthState
  trace : List Effect
  deriving Repr

/-- The full-authentication block of `get_credentials` (lines 176-198):
missing or malformed client-secret file is caught and gives `None` before the
browser opens; otherwise `flow.run_local_server` either yields a credential
(which is saved) or raises, which is caught and gives `None`. -/
def run_interactive_flow (env : Env) (path : String) (s : AuthState) :
    AcquireResult :=
  match env.clientSecretExists, env.clientSecretParses, env.flowResult with
  | false, _, _ => ⟨none, s, []⟩
  | true, false, _ => ⟨none, s, []⟩
  | true, true, some c => ⟨some c, (save_credentials env c path s).2,
                           [Effect.interactiveFlow]⟩
  | true, true, none => ⟨none, s, [Effect.interactiveFlow]⟩

/-- Prepend the refresh attempt to a result's trace. -/
def addRefreshEffect (r : AcquireResult) : AcquireResult :=
  ⟨r.creds, r.state, Effect.refreshCall :: r.trace⟩

/-- The body of `get_credentials` after the token path is computed, split on
the outcome of `_load_credentials`. -/
def acquire_from (env : Env) (path : String) :
    Option Credential × AuthState → AcquireResult
  | (some c, s0) =>
    if c.valid env.now then ⟨some c, s0, []⟩
    else if c.expired env.now && c.refresh_token.isSome then
      match env.refreshResult c with
      | some c2 => ⟨some c2, (save_credentials env c2 path s0).2,
                    [Effect.refreshCall]⟩
      | none => addRefreshEffect (run_interactive_flow env path s0)
    else
      ⟨some c, s0, []⟩
  | (none, s0) => run_interactive_flow env path s0

/-- Embedding of `GoogleAuth.get_credentials` (acquire): load by token path, return if
valid, refresh if expired with a refresh token, otherwise fall through to
the interactive flow guarded by `if not self.credentials`. -/
def get_credentials (env : Env) (scopes : List String) (user_id : String)
    (s : AuthState) : AcquireResult :=
  acquire_from env (get_token_path env scopes user_id)
    (load_credentials (get_token_path env scopes user_id) s)

/-- Result of `check_saved_credentials`. -/
structure CheckResult where
  ok : Bool
  state : AuthState
  trace : List Effect
  deriving Repr

/-- The body of `check_saved_credentials` after the existence test, split on
the outcome of `_load_credentials`. -/
def check_from (env : Env) (path : String) :
    Option Credential × AuthState → CheckResult
  | (none, s0) => ⟨false, s0, []⟩
  | (some c, s0) =>
    if c.valid env.now then ⟨true, s0, []⟩
    else if c.expired env.now && c.refresh_token.isSome then
      match env.refreshResult c with
      | some c2 => ⟨true, (save_credentials env c2 path s0).2,
                    [Effect.refreshCall]⟩
      | none => ⟨false, s0, [Effect.refreshCall]⟩
    else ⟨false, s0, []⟩

/-- Embedding of `GoogleAuth.check_saved_credentials`: probes only the token stored under
the key for the combined YouTube-plus-Sheets scope set; takes no scope-set
parameter. -/
def check_saved_credentials (env : Env) (user_id : String) (s : AuthState) :
    CheckResult :=
  if !(s.disk.any (fun p => p.1 == get_token_path env combined_scopes user_id))
  then ⟨false, s, []⟩
  else
    check_from env (get_token_path env combined_scopes user_id)
      (load_credentials (get_token_path env combined_scopes user_id) s)

/-- The glob pattern `token_{user_id}_*.pickle` used by `revoke_token`:
the name is the prefix, then anything, then `.pickle`. -/
def globMatches (user_id : String) (name : String) : Bool :=
  ("token_" ++ user_id ++ "_").data.isPrefixOf name.data
    && List.isSuffixOf ".pickle".data name.data
    && decide (("token_" ++ user_id ++ "_").length + ".pickle".length
               ≤ name.length)

/-- One iteration of the loop in `revoke_token`.  A failing remote
revocation raises inside the `try`, so the `unlink` and the cache eviction
for that token are skipped and the overall flag becomes `False`. -/
def revoke_step (env : Env) (acc : Bool × AuthState) (path : String) :
    Bool × AuthState :=
  match load_credentials path acc.2 with
  | (some c, s1) =>
    if c.refresh_token.isSome && !(env.revokeOk c) then
      (false, s1)
    else
      (acc.1, { token_cache := assocDel path s1.token_cache,
                disk := assocDel path s1.disk })
  | (none, s1) =>
      (acc.1, { token_cache := assocDel path s1.token_cache,
                disk := assocDel path s1.disk })

/-- Embedding of `GoogleAuth.revoke_token`: glob all token files of the identity, revoke
remotely where a refresh token is present, delete file and cache entry,
returning `False` when there is nothing to do or any step failed. -/
def revoke_token (env : Env) (user_id : String) (s : AuthState) :
    Bool × AuthState :=
  let user_tokens := (s.disk.map (fun p => p.1)).filter (globMatches user_id)
  if user_tokens.isEmpty then (false, s)
  else user_tokens.foldl (revoke_step env) (true, s)

/-! ### Association-list lemmas -/

theorem find?_filter_ne {α : Type} (l : List (String × α)) (k q : String)
    (h : k ≠ q) :
    (l.filter (fun p => p.1 != k)).find? (fun p => p.1 == q)
      = l.find? (fun p => p.1 == q) := by
  induction l with
  | nil => rfl
  | cons a t ih =>
    by_cases ha : a.1 = k
    · have hq : (a.1 == q) = false := by
        simp [ha]
        exact h
      have hkq : (k == q) = false := by
        simp
        exact h
      simp [List.filter_cons, List.find?_cons, ha, hq, hkq, ih]
    · have ha' : (a.1 != k) = true := by simp [ha]
      simp only [List.filter_cons, ha', if_true]
      by_cases hq : a.1 = q
      · simp [List.find?_cons, hq]
      · have hq' : (a.1 == q) = false := by simp [hq]
        simp [List.find?_cons, hq', ih]

theorem find?_filter_self {α : Type} (l : List (String × α)) (k : String) :
    (l.filter (fun p => p.1 != k)).find? (fun p => p.1 == k) = none := by
  induction l with
  | nil => rfl
  | cons a t ih =>
    by_cases ha : a.1 = k
    · simp [List.filter_cons, ha, ih]
    · have ha' : (a.1 != k) = true := by simp [ha]
      have ha'' : (a.1 == k) = false := by simp [ha]
      simp [List.filter_cons, ha', List.find?_cons, ha'', ih]

theorem assocGet_set_self {α : Type} (k : String) (v : α)
    (l : List (String × α)) : assocGet k (assocSet k v l) = some v := by
  simp [assocGet, assocSet, List.find?_cons]

theorem assocGet_set_ne {α : Type} (k q : String) (v : α)
    (l : List (String × α)) (h : q ≠ k) :
    assocGet q (assocSet k v l) = assocGet q l := by
  have hk : (k == q) = false := by
    simp
    exact fun e => h e.symm
  simp [assocGet, assocSet, List.find?_cons, hk,
        find?_filter_ne l k q (fun e => h e.symm)]

theorem assocGet_del_self {α : Type} (k : String) (l : List (String × α)) :
    assocGet k (assocDel k l) = none := by
  simp [assocGet, assocDel, find?_filter_self]

theorem assocGet_del_ne {α : Type} (k q : String) (l : List (String × α))
    (h : q ≠ k) : assocGet q (assocDel k l) = assocGet q l := by
  simp [assocGet, assocDel, find?_filter_ne l k q (fun e => h e.symm)]

theorem assocGet_eq_none_iff {α : Type} (k : String) (l : List (String × α)) :
    assocGet k l = none ↔ ∀ p ∈ l, p.1 ≠ k := by
  unfold assocGet
  cases hf : l.find? (fun p => p.1 == k) with
  | some p =>
    simp only [Option.map_some', reduceCtorEq, false_iff]
    intro hall
    have hmem := List.mem_of_find?_eq_some hf
    have hp := List.find?_some hf
    exact hall p hmem (by simpa using hp)
  | none =>
    simp only [Option.map_none', true_iff]
    intro p hp
    have := List.find?_eq_none.mp hf p hp
    simpa using this

theorem assocGet_some_mem_keys {α : Type} (k : String) (v : α)
    (l : List (String × α)) (h : assocGet k l = some v) :
    k ∈ l.map (fun p => p.1) := by
  unfold assocGet at h
  cases hf : l.find? (fun p => p.1 == k) with
  | none => rw [hf] at h; exact absurd h (by simp)
  | some p =>
    have hmem := List.mem_of_find?_eq_some hf
    have hp := List.find?_some hf
    have : p.1 = k := by simpa using hp
    exact this ▸ List.mem_map_of_mem (fun p => p.1) hmem

theorem any_key_eq_false {α : Type} (k : String) (l : List (String × α))
    (h : assocGet k l = none) : l.any (fun p => p.1 == k) = false := by
  have hall := (assocGet_eq_none_iff k l).mp h
  simp only [List.any_eq_false]
  intro p hp
  simpa using hall p hp

/-! ### `_load_credentials` and `_save_credentials` lemmas -/

theorem load_disk_eq (p : String) (s : AuthState) :
    (load_credentials p s).2.disk = s.disk := by
  unfold load_credentials
  cases hc : assocGet p s.token_cache with
  | some c => rfl
  | none =>
    cases hd : assocGet p s.disk with
    | none => rfl
    | some b =>
      cases b with
      | none => rfl
      | some blob => rfl

theorem load_of_cache (p : String) (s : AuthState) (c : Credential)
    (h : assocGet p s.token_cache = some c) :
    load_credentials p s = (some c, s) := by
  unfold load_credentials
  rw [h]

theorem load_cache_self (p : String) (s : AuthState) (c : Credential)
    (h : (load_credentials p s).1 = some c) :
    assocGet p (load_credentials p s).2.token_cache = some c := by
  unfold load_credentials at h ⊢
  cases hc : assocGet p s.token_cache with
  | some c0 =>
    rw [hc] at h
    simpa [hc] using h
  | none =>
    rw [hc] at h
    cases hd : assocGet p s.disk with
    | none => rw [hd] at h; exact absurd h (by simp)
    | some b =>
      cases b with
      | none => rw [hd] at h; exact absurd h (by simp)
      | some blob =>
        rw [hd] at h
        have hc2 : some (pickleLoad blob) = some c := by simpa using h
        simp [hc, hd, assocGet_set_self, hc2]

theorem load_cache_ne (p q : String) (s : AuthState) (h : q ≠ p) :
    assocGet q (load_credentials p s).2.token_cache
      = assocGet q s.token_cache := by
  unfold load_credentials
  cases hc : assocGet p s.token_cache with
  | some c => rfl
  | none =>
    cases hd : assocGet p s.disk with
    | none => rfl
    | some b =>
      cases b with
      | none => rfl
      | some blob => simp [assocGet_set_ne _ _ _ _ h]

theorem save_state (env : Env) (c : Credential) (p : String) (s : AuthState)
    (hsave : env.saveOk = true) :
    (save_credentials env c p s).2
      = { token_cache := assocSet p c s.token_cache,
          disk := assocSet p (some (pickleDump c)) s.disk } := by
  simp [save_credentials, hsave]

theorem pickle_round_trip (c : Credential) : pickleLoad (pickleDump c) = c := by
  cases c
  rfl

/-! ### Token-path lemmas -/

theorem get_token_path_eq_iff (e1 e2 : Env) (S1 S2 : List String)
    (u : String) :
    get_token_path e1 S1 u = get_token_path e2 S2 u
      ↔ toString (e1.pyHash (joinScopes S1))
          = toString (e2.pyHash (joinScopes S2)) := by
  unfold get_token_path
  constructor
  · intro h
    have hd := congrArg String.data h
    simp only [String.data_append, List.append_assoc] at hd
    have h1 := List.append_cancel_left hd
    have h2 := List.append_cancel_left h1
    have h3 := List.append_cancel_left h2
    have h4 := List.append_cancel_right h3
    exact String.ext h4
  · intro h
    rw [h]

theorem glob_token_path (env : Env) (S : List String) (u : String) :
    globMatches u (get_token_path env S u) = true := by
  unfold globMatches get_token_path
  simp only [Bool.and_eq_true, decide_eq_true_eq]
  refine ⟨⟨?_, ?_⟩, ?_⟩
  · rw [List.isPrefixOf_iff_prefix]
    simp only [String.data_append]
    exact (List.prefix_append _ _).trans (List.prefix_append _ _)
  · rw [List.isSuffixOf_iff_suffix]
    simp only [String.data_append]
    exact List.suffix_append _ _
  · simp only [String.length_append]
    omega

/-! ### `get_credentials` lemmas -/

theorem flow_flows_le_one (env : Env) (p : String) (s : AuthState) :
    countFlows (run_interactive_flow env p s).trace ≤ 1 := by
  cases he : env.clientSecretExists with
  | false => simp [run_interactive_flow, he, countFlows]
  | true =>
    cases hp : env.clientSecretParses with
    | false => simp [run_interactive_flow, he, hp, countFlows]
    | true =>
      cases hf : env.flowResult with
      | none => simp [run_interactive_flow, he, hp, hf, countFlows]
      | some c => simp [run_interactive_flow, he, hp, hf, countFlows]

theorem flow_result_cached (env : Env) (p : String) (s0 : AuthState)
    (c : Credential) (hsave : env.saveOk = true)
    (h : (run_interactive_flow env p s0).creds = some c) :
    assocGet p (run_interactive_flow env p s0).state.token_cache = some c := by
  cases he : env.clientSecretExists with
  | false => simp only [run_interactive_flow, he] at h; exact absurd h (by simp)
  | true =>
    cases hp : env.clientSecretParses with
    | false =>
      simp only [run_interactive_flow, he, hp] at h
      exact absurd h (by simp)
    | true =>
      cases hf : env.flowResult with
      | none =>
        simp only [run_interactive_flow, he, hp, hf] at h
        exact absurd h (by simp)
      | some cf =>
        simp only [run_interactive_flow, he, hp, hf] at h
        have hcf : cf = c := by simpa using h
        simp only [run_interactive_flow, he, hp, hf, hcf,
                   save_state env c p s0 hsave]
        exact assocGet_set_self p c _

theorem acquire_flows_le_one (env : Env) (p : String)
    (lr : Option Credential × AuthState) :
    countFlows (acquire_from env p lr).trace ≤ 1 := by
  rcases lr with ⟨c?, s0⟩
  cases c? with
  | none => exact flow_flows_le_one env p s0
  | some c =>
    by_cases hv : c.valid env.now = true
    · simp [acquire_from, hv, countFlows]
    · by_cases hr : (c.expired env.now && c.refresh_token.isSome) = true
      · cases hrr : env.refreshResult c with
        | some c2 => simp [acquire_from, hv, hr, hrr, countFlows]
        | none =>
          simp only [acquire_from, hv, hr, hrr, Bool.false_eq_true,
                     if_false, if_true, addRefreshEffect]
          simpa [countFlows] using flow_flows_le_one env p s0
      · simp [acquire_from, hv, hr, countFlows]

theorem acquire_result_cached (env : Env) (p : String) (s : AuthState)
    (c : Credential) (hsave : env.saveOk = true)
    (h : (acquire_from env p (load_credentials p s)).creds = some c) :
    assocGet p
      (acquire_from env p (load_credentials p s)).state.token_cache
      = some c := by
  rcases hl : load_credentials p s with ⟨c?, s0⟩
  rw [hl] at h
  cases c? with
  | none => exact flow_result_cached env p s0 c hsave h
  | some c0 =>
    have hcache : assocGet p s0.token_cache = some c0 := by
      have := load_cache_self p s c0 (by rw [hl])
      rwa [hl] at this
    by_cases hv : c0.valid env.now = true
    · simp only [acquire_from, hv, if_true] at h ⊢
      have : c0 = c := by simpa using h
      rwa [this] at hcache
    · by_cases hr : (c0.expired env.now && c0.refresh_token.isSome) = true
      · cases hrr : env.refreshResult c0 with
        | some c2 =>
          simp only [acquire_from, hv, hr, hrr, Bool.false_eq_true, if_false,
                     if_true] at h ⊢
          have hc2 : c2 = c := by simpa using h
          rw [hc2, save_state env c p s0 hsave]
          exact assocGet_set_self p c _
        | none =>
          simp only [acquire_from, hv, hr, hrr, Bool.false_eq_true, if_false,
                     if_true, addRefreshEffect] at h ⊢
          exact flow_result_cached env p s0 c hsave h
      · simp only [acquire_from, hv, hr, Bool.false_eq_true, if_false] at h ⊢
        have : c0 = c := by simpa using h
        rwa [this] at hcache

theorem acquire_of_cached_valid (env : Env) (p : String) (s : AuthState)
    (c : Credential) (hc : assocGet p s.token_cache = some c)
    (hv : c.valid env.now = true) :
    acquire_from env p (load_credentials p s) = ⟨some c, s, []⟩ := by
  rw [load_of_cache p s c hc]
  simp [acquire_from, hv]

/-! ### `check_saved_credentials` lemmas -/

theorem check_false_of_no_disk (env : Env) (u : String) (s : AuthState)
    (h : assocGet (get_token_path env combined_scopes u) s.disk = none) :
    check_saved_credentials env u s = ⟨false, s, []⟩ := by
  unfold check_saved_credentials
  rw [any_key_eq_false _ _ h]
  simp

/-! ### `revoke_token` lemmas -/

theorem revoke_step_disk (env : Env) (acc : Bool × AuthState) (p : String)
    (hrev : ∀ c, env.revokeOk c = true) :
    (revoke_step env acc p).2.disk = assocDel p acc.2.disk := by
  unfold revoke_step
  rcases hl : load_credentials p acc.2 with ⟨c?, s1⟩
  have hdisk : s1.disk = acc.2.disk := by
    have := load_disk_eq p acc.2
    rwa [hl] at this
  cases c? with
  | none => simp [hdisk]
  | some c => simp [hrev c, hdisk]

theorem revoke_step_cache_none (env : Env) (acc : Bool × AuthState)
    (p q : String) (hrev : ∀ c, env.revokeOk c = true)
    (h : q = p ∨ assocGet q acc.2.token_cache = none) :
    assocGet q (revoke_step env acc p).2.token_cache = none := by
  unfold revoke_step
  rcases hl : load_credentials p acc.2 with ⟨c?, s1⟩
  have hcache : ∀ hq : q ≠ p, assocGet q s1.token_cache
      = assocGet q acc.2.token_cache := by
    intro hq
    have := load_cache_ne p q acc.2 hq
    rwa [hl] at this
  by_cases hq : q = p
  · cases c? with
    | none => simpa [hq] using assocGet_del_self p s1.token_cache
    | some c => simpa [hrev c, hq] using assocGet_del_self p s1.token_cache
  · have habs : assocGet q acc.2.token_cache = none := h.resolve_left hq
    have hres : assocGet q (assocDel p s1.token_cache) = none := by
      rw [assocGet_del_ne p q s1.token_cache hq, hcache hq]
      exact habs
    cases c? with
    | none => simpa using hres
    | some c => simpa [hrev c] using hres

theorem revoke_step_fst (env : Env) (acc : Bool × AuthState) (p : String)
    (hrev : ∀ c, env.revokeOk c = true) :
    (revoke_step env acc p).1 = acc.1 := by
  unfold revoke_step
  rcases hl : load_credentials p acc.2 with ⟨c?, s1⟩
  cases c? with
  | none => simp
  | some c => simp [hrev c]

theorem revoke_fold_disk_none (env : Env)
    (hrev : ∀ c, env.revokeOk c = true) :
    ∀ (L : List String) (acc : Bool × AuthState) (q : String),
      (q ∈ L ∨ assocGet q acc.2.disk = none) →
      assocGet q (L.foldl (revoke_step env) acc).2.disk = none := by
  intro L
  induction L with
  | nil =>
    intro acc q h
    simpa using h.resolve_left (by simp)
  | cons p t ih =>
    intro acc q h
    rw [List.foldl_cons]
    apply ih
    by_cases hq : q = p
    · right
      rw [revoke_step_disk env acc p hrev, hq]
      exact assocGet_del_self p acc.2.disk
    · rcases h with hmem | habs
      · rcases List.mem_cons.mp hmem with h1 | h2
        · exact absurd h1 hq
        · exact Or.inl h2
      · right
        rw [revoke_step_disk env acc p hrev,
            assocGet_del_ne p q acc.2.disk hq]
        exact habs

theorem revoke_fold_cache_none (env : Env)
    (hrev : ∀ c, env.revokeOk c = true) :
    ∀ (L : List String) (acc : Bool × AuthState) (q : String),
      (q ∈ L ∨ assocGet q acc.2.token_cache = none) →
      assocGet q (L.foldl (revoke_step env) acc).2.token_cache = none := by
  intro L
  induction L with
  | nil =>
    intro acc q h
    simpa using h.resolve_left (by simp)
  | cons p t ih =>
    intro acc q h
    rw [List.foldl_cons]
    apply ih
    by_cases hq : q = p
    · right
      exact revoke_step_cache_none env acc p q hrev (Or.inl hq)
    · rcases h with hmem | habs
      · rcases List.mem_cons.mp hmem with h1 | h2
        · exact absurd h1 hq
        · exact Or.inl h2
      · right
        exact revoke_step_cache_none env acc p q hrev (Or.inr habs)

/-! ### Concrete fixtures -/

/-- A process environment: hash salt fixed to the constant 0 function, clock
at 1000, configuration present, refresh and flow failing, remote revocation
succeeding, storage writable. -/
def baseEnv : Env :=
  { pyHash := fun _ => 0, now := 1000,
    clientSecretExists := true, clientSecretParses := true,
    flowResult := none, refreshResult := fun _ => none,
    revokeOk := fun _ => true, saveOk := true }

/-- The same machine state in a second process run whose hash salt differs. -/
def seedEnv1 : Env := { baseEnv with pyHash := fun _ => 1 }

/-- A run whose string hash gives 7 on the joined YouTube scopes and 0
elsewhere (a stand-in for an injective-on-inputs-of-interest salted hash). -/
def selectiveHashEnv : Env :=
  { baseEnv with
    pyHash := fun t => if t == joinScopes YOUTUBE_SCOPES then 7 else 0 }

/-- A credential that is valid at time 1000 and carries a refresh token. -/
def validCred : Credential :=
  { token := some "acc", refresh_token := some "ref", token_uri := "uri",
    client_id := "cid", client_secret := "sec",
    scopes := combined_scopes, expiry := some 2000 }

/-- A credential that at time 1000 is expired and has no refresh token. -/
def staleNoRefreshCred : Credential :=
  { validCred with refresh_token := none, expiry := some 10 }

/-- The empty manager state. -/
def emptyState : AuthState := { token_cache := [], disk := [] }

/-! ### C1 -/

/-- C1: claimed that the storage key is a deterministic function of the
sorted scope set and identity alone and is identical across process runs.
The code hashes with Python's salted `hash`: with the same scopes and user,
two runs whose hash functions differ produce different token paths (first
conjunct), even though within one run the key depends only on the sorted
scope sequence (second conjunct).  This refutes cross-run stability. -/
theorem token_key_differs_across_hash_seeds :
    get_token_path baseEnv YOUTUBE_SCOPES "default"
        ≠ get_token_path seedEnv1 YOUTUBE_SCOPES "default"
      ∧ get_token_path selectiveHashEnv YOUTUBE_SCOPES "default"
        = get_token_path selectiveHashEnv YOUTUBE_SCOPES.reverse "default" := by
  constructor
  · decide
  · have hj : joinScopes YOUTUBE_SCOPES.reverse = joinScopes YOUTUBE_SCOPES := by
      decide
    exact (get_token_path_eq_iff _ _ _ _ _).mpr (by rw [hj])

/-! ### C2 -/

/-- An environment whose remote revocation endpoint raises. -/
def c2Env : Env := { baseEnv with revokeOk := fun _ => false }

/-- One identity token stored on disk, valid with a refresh token. -/
def c2State : AuthState :=
  { token_cache := [],
    disk := [(get_token_path c2Env combined_scopes "default",
              some (pickleDump validCred))] }

/-- C2 counterexample: claimed that revoke deletes every local store and
cache entry even when the remote revocation call fails, and that
`checkCached` is false afterwards.  In the code the remote failure raises
before `unlink`, so the token file survives and `check_saved_credentials`
still returns true after `revoke_token`. -/
theorem revoke_remote_failure_leaves_usable_token :
    (revoke_token c2Env "default" c2State).1 = false
      ∧ assocGet (get_token_path c2Env combined_scopes "default")
          (revoke_token c2Env "default" c2State).2.disk
          = some (some (pickleDump validCred))
      ∧ (check_saved_credentials c2Env "default"
          (revoke_token c2Env "default" c2State).2).ok = true := by
  refine ⟨?_, ?_, ?_⟩ <;> decide

/-- C2 (amended): when the remote revocation call does not fail, revoke
deletes the store entry and the cache entry of every token file of the
identity, and `check_saved_credentials` returns false afterwards; when a
remote call fails, that entry is left in place and revoke returns false. -/
theorem revoke_success_clears_identity (env : Env) (u : String)
    (s : AuthState) (p : String)
    (hrev : ∀ c, env.revokeOk c = true)
    (hmem : p ∈ (s.disk.map (fun e => e.1)).filter (globMatches u)) :
    assocGet p (revoke_token env u s).2.disk = none
    ∧ assocGet p (revoke_token env u s).2.token_cache = none
    ∧ (check_saved_credentials env u (revoke_token env u s).2).ok = false := by
  have hne : ((s.disk.map (fun e => e.1)).filter (globMatches u)).isEmpty
      = false := by
    cases hL : (s.disk.map (fun e => e.1)).filter (globMatches u) with
    | nil => rw [hL] at hmem; simp at hmem
    | cons a t => rfl
  have hfold : revoke_token env u s
      = ((s.disk.map (fun e => e.1)).filter (globMatches u)).foldl
          (revoke_step env) (true, s) := by
    unfold revoke_token
    simp [hne]
  rw [hfold]
  refine ⟨?_, ?_, ?_⟩
  · exact revoke_fold_disk_none env hrev _ _ p (Or.inl hmem)
  · exact revoke_fold_cache_none env hrev _ _ p (Or.inl hmem)
  · have hq : assocGet (get_token_path env combined_scopes u)
        (((s.disk.map (fun e => e.1)).filter (globMatches u)).foldl
          (revoke_step env) (true, s)).2.disk = none := by
      cases hd : assocGet (get_token_path env combined_scopes u) s.disk with
      | none => exact revoke_fold_disk_none env hrev _ _ _ (Or.inr hd)
      | some v =>
        apply revoke_fold_disk_none env hrev _ _ _
        left
        rw [List.mem_filter]
        exact ⟨assocGet_some_mem_keys _ v _ hd,
               glob_token_path env combined_scopes u⟩
    rw [check_false_of_no_disk env u _ hq]

/-- Witness for the amended C2: a concrete identity with one stored valid
token and a succeeding remote endpoint; after revoke the file and the cache
entry for it are gone and the probe reports false. -/
theorem revoke_success_clears_identity_witness :
    assocGet (get_token_path baseEnv combined_scopes "default")
        (revoke_token baseEnv "default"
          { token_cache := [],
            disk := [(get_token_path baseEnv combined_scopes "default",
                      some (pickleDump validCred))] }).2.disk = none
    ∧ assocGet (get_token_path baseEnv combined_scopes "default")
        (revoke_token baseEnv "default"
          { token_cache := [],
            disk := [(get_token_path baseEnv combined_scopes "default",
                      some (pickleDump validCred))] }).2.token_cache = none
    ∧ (check_saved_credentials baseEnv "default"
        (revoke_token baseEnv "default"
          { token_cache := [],
            disk := [(get_token_path baseEnv combined_scopes "default",
                      some (pickleDump validCred))] }).2).ok = false :=
  revoke_success_clears_identity baseEnv "default"
    { token_cache := [],
      disk := [(get_token_path baseEnv combined_scopes "default",
                some (pickleDump validCred))] }
    (get_token_path baseEnv combined_scopes "default")
    (fun _ => rfl) (by decide)

/-! ### C3 -/

/-- An environment in which the interactive flow would succeed. -/
def c3Env : Env := { baseEnv with flowResult := some validCred }

/-- A cached record that is expired and has no refresh token. -/
def c3State : AuthState :=
  { token_cache := [(get_token_path c3Env combined_scopes "default",
                     staleNoRefreshCred)],
    disk := [] }

/-- C3: claimed that acquire never returns a record that is both expired and
lacking a refresh token.  The code's `if not self.credentials` guard sees a
truthy stale object, skips the interactive flow, and returns the expired,
non-refreshable record unchanged. -/
theorem acquire_returns_expired_nonrefreshable :
    (get_credentials c3Env combined_scopes "default" c3State).creds
        = some staleNoRefreshCred
      ∧ staleNoRefreshCred.expired c3Env.now = true
      ∧ staleNoRefreshCred.refresh_token = none := by
  refine ⟨?_, ?_, ?_⟩ <;> decide

/-! ### C4 -/

/-- Client-secret file missing, although the flow itself would succeed. -/
def c4MissEnv : Env :=
  { baseEnv with clientSecretExists := false, flowResult := some validCred }

/-- Configuration present but the interactive flow fails (user cancels). -/
def c4FailEnv : Env := { baseEnv with flowResult := none }

/-- C4 counterexample: claimed that a missing/malformed client identity file
signals an outcome distinct from a failed interactive flow.  The code
returns `None` in both cases, so the two outcomes are equal and the caller
cannot distinguish them. -/
theorem acquire_failure_outcomes_equal :
    (get_credentials c4MissEnv combined_scopes "default" emptyState).creds
        = none
      ∧ (get_credentials c4FailEnv combined_scopes "default" emptyState).creds
        = none
      ∧ (get_credentials c4MissEnv combined_scopes "default" emptyState).creds
        = (get_credentials c4FailEnv combined_scopes "default"
            emptyState).creds := by
  refine ⟨?_, ?_, ?_⟩ <;> decide

/-- C4 (amended): with no loadable record, acquire signals the missing or
malformed client identity configuration and the failed interactive flow by
one and the same outcome: it returns no credential (`None`); only the log
distinguishes them. -/
theorem acquire_returns_none_on_config_missing_or_flow_failure
    (env env' : Env) (S : List String) (u : String) (s s' : AuthState)
    (hmiss : env.clientSecretExists = false ∨ env.clientSecretParses = false)
    (hload : (load_credentials (get_token_path env S u) s).1 = none)
    (hflow : env'.flowResult = none)
    (hload' : (load_credentials (get_token_path env' S u) s').1 = none) :
    (get_credentials env S u s).creds = none
    ∧ (get_credentials env' S u s').creds = none := by
  constructor
  · unfold get_credentials
    rcases hl : load_credentials (get_token_path env S u) s with ⟨c?, s0⟩
    rw [hl] at hload
    cases c? with
    | some c0 => exact absurd hload (by simp)
    | none =>
      show (run_interactive_flow env (get_token_path env S u) s0).creds = none
      cases he : env.clientSecretExists with
      | false => simp [run_interactive_flow, he]
      | true =>
        have hp : env.clientSecretParses = false := by
          rcases hmiss with h1 | h2
          · rw [he] at h1; exact absurd h1 (by simp)
          · exact h2
        simp [run_interactive_flow, he, hp]
  · unfold get_credentials
    rcases hl : load_credentials (get_token_path env' S u) s' with ⟨c?, s0⟩
    rw [hl] at hload'
    cases c? with
    | some c0 => exact absurd hload' (by simp)
    | none =>
      show (run_interactive_flow env' (get_token_path env' S u) s0).creds = none
      cases he : env'.clientSecretExists with
      | false => simp [run_interactive_flow, he]
      | true =>
        cases hp : env'.clientSecretParses with
        | false => simp [run_interactive_flow, he, hp]
        | true => simp [run_interactive_flow, he, hp, hflow]

/-- Witness for the amended C4: both failure scenarios instantiated
concretely produce the `None` outcome. -/
theorem acquire_returns_none_on_config_missing_or_flow_failure_witness :
    (get_credentials c4MissEnv combined_scopes "default" emptyState).creds
        = none
    ∧ (get_credentials c4FailEnv combined_scopes "default" emptyState).creds
        = none :=
  acquire_returns_none_on_config_missing_or_flow_failure
    c4MissEnv c4FailEnv combined_scopes "default" emptyState emptyState
    (Or.inl rfl) (by decide) rfl (by decide)

/-! ### C5 -/

/-- A run whose string hash is the length (any fixed per-run hash works:
the collision below comes from the delimiter-free join, not from the hash). -/
def c5Env : Env := { baseEnv with pyHash := fun t => (t.length : Int) }

/-- C5 counterexample: claimed that distinct scope sets always get distinct
cache keys.  The key hashes `''.join(sorted(scopes))`, which has no
delimiter, so the distinct scope sets containing `"ab"` and `"a", "b"`
share the join `"ab"` and hence the token path. -/
theorem distinct_scope_sets_same_token_path :
    get_token_path c5Env ["ab"] "default"
        = get_token_path c5Env ["a", "b"] "default"
      ∧ "ab" ∈ (["ab"] : List String)
      ∧ "ab" ∉ (["a", "b"] : List String) := by
  have hj : joinScopes ["ab"] = joinScopes ["a", "b"] := by decide
  exact ⟨(get_token_path_eq_iff _ _ _ _ _).mpr (by rw [hj]), by decide,
         by decide⟩

/-- C5 (amended): for a fixed identity and process run, two scope sets get
the same cache key exactly when the decimal rendering of the run's hash of
their delimiter-free sorted concatenations agree; in particular distinct
scope sets with equal concatenations (and any hash collisions) share a key,
so key distinctness holds only up to that. -/
theorem token_path_eq_iff_hash_repr_eq (env : Env) (S1 S2 : List String)
    (u : String) :
    get_token_path env S1 u = get_token_path env S2 u
      ↔ toString (env.pyHash (joinScopes S1))
          = toString (env.pyHash (joinScopes S2)) :=
  get_token_path_eq_iff env env S1 S2 u

/-! ### C6 -/

/-- C6: acquire never runs the interactive consent flow when the load step
yields a credential that is valid or successfully refreshable (first
conjunct), and two sequential acquires with working storage and no
intervening expiry (the first result is still valid at the second call)
perform at most one interactive flow in total, the second call being a
cache hit with zero flows (second conjunct). -/
theorem acquire_cache_hit_no_interactive_flow (env : Env) (S : List String)
    (u : String) (s : AuthState) (c d : Credential)
    (hsave : env.saveOk = true) :
    (((load_credentials (get_token_path env S u) s).1 = some c →
        (c.valid env.now = true
          ∨ (c.expired env.now = true ∧ c.refresh_token.isSome = true
              ∧ (env.refreshResult c).isSome = true)) →
        countFlows (get_credentials env S u s).trace = 0)
      ∧ ((get_credentials env S u s).creds = some d →
          d.valid env.now = true →
          countFlows (get_credentials env S u
              (get_credentials env S u s).state).trace = 0
            ∧ countFlows (get_credentials env S u s).trace
                + countFlows (get_credentials env S u
                    (get_credentials env S u s).state).trace ≤ 1)) := by
  constructor
  · intro hld husable
    unfold get_credentials
    rcases hl : load_credentials (get_token_path env S u) s with ⟨c?, s0⟩
    rw [hl] at hld
    cases c? with
    | none => exact absurd hld (by simp)
    | some c0 =>
      have hc0 : c0 = c := by simpa using hld
      subst hc0
      by_cases hv : c0.valid env.now = true
      · simp [acquire_from, hv, countFlows]
      · rcases husable with h1 | ⟨hexp, hrt, hrr⟩
        · exact absurd h1 hv
        · have hcond : (c0.expired env.now && c0.refresh_token.isSome)
              = true := by rw [hexp, hrt]; rfl
          cases hrr2 : env.refreshResult c0 with
          | none => rw [hrr2] at hrr; exact absurd hrr (by simp)
          | some c2 => simp [acquire_from, hv, hcond, hrr2, countFlows]
  · intro hres hvalid
    have hcached : assocGet (get_token_path env S u)
        (get_credentials env S u s).state.token_cache = some d :=
      acquire_result_cached env (get_token_path env S u) s d hsave hres
    have hsecond : get_credentials env S u (get_credentials env S u s).state
        = ⟨some d, (get_credentials env S u s).state, []⟩ :=
      acquire_of_cached_valid env (get_token_path env S u)
        (get_credentials env S u s).state d hcached hvalid
    constructor
    · rw [hsecond]
      rfl
    · rw [hsecond]
      have h1 : countFlows (get_credentials env S u s).trace ≤ 1 :=
        acquire_flows_le_one env (get_token_path env S u)
          (load_credentials (get_token_path env S u) s)
      simpa using h1

/-- A cached valid credential under the combined key. -/
def c6State : AuthState :=
  { token_cache := [(get_token_path baseEnv combined_scopes "default",
                     validCred)],
    disk := [] }

/-- Witness for C6 at a concrete cached valid credential. -/
theorem acquire_cache_hit_no_interactive_flow_witness :
    (((load_credentials (get_token_path baseEnv combined_scopes "default")
          c6State).1 = some validCred →
        (validCred.valid baseEnv.now = true
          ∨ (validCred.expired baseEnv.now = true
              ∧ validCred.refresh_token.isSome = true
              ∧ (baseEnv.refreshResult validCred).isSome = true)) →
        countFlows
          (get_credentials baseEnv combined_scopes "default" c6State).trace
          = 0)
      ∧ ((get_credentials baseEnv combined_scopes "default" c6State).creds
            = some validCred →
          validCred.valid baseEnv.now = true →
          countFlows (get_credentials baseEnv combined_scopes "default"
              (get_credentials baseEnv combined_scopes "default"
                c6State).state).trace = 0
            ∧ countFlows
                (get_credentials baseEnv combined_scopes "default"
                  c6State).trace
                + countFlows (get_credentials baseEnv combined_scopes
                    "default"
                    (get_credentials baseEnv combined_scopes "default"
                      c6State).state).trace ≤ 1)) :=
  acquire_cache_hit_no_interactive_flow baseEnv combined_scopes "default"
    c6State validCred validCred rfl

/-! ### C7 -/

/-- The fresh credential the interactive flow would issue. -/
def c7Fresh : Credential :=
  { validCred with token := some "fresh", expiry := some 5000 }

/-- An environment whose interactive flow succeeds with `c7Fresh`. -/
def c7Env : Env := { baseEnv with flowResult := some c7Fresh }

/-- An expired stored credential without refresh token. -/
def c7Stale : Credential :=
  { validCred with
    token := some "old", refresh_token := none, expiry := some 300 }

/-- The stale record stored on disk under the combined key for user u7. -/
def c7State : AuthState :=
  { token_cache := [],
    disk := [(get_token_path c7Env combined_scopes "u7",
              some (pickleDump c7Stale))] }

/-- C7: claimed that an expired cached record with no refresh token is
discarded and exactly one interactive consent flow is performed.  On this
input the code performs zero interactive flows and returns the stale record
itself, even though the flow (which would have issued `c7Fresh`) was
available. -/
theorem acquire_expired_norefresh_skips_flow :
    countFlows (get_credentials c7Env combined_scopes "u7" c7State).trace = 0
      ∧ (get_credentials c7Env combined_scopes "u7" c7State).creds
        = some c7Stale
      ∧ c7Stale.expired c7Env.now = true
      ∧ c7Stale.refresh_token = none
      ∧ c7Env.flowResult = some c7Fresh := by
  refine ⟨?_, ?_, ?_, ?_, ?_⟩ <;> decide

/-! ### C8 -/

/-- C8: persisting a credential record to the token store and loading it
back — whether through the in-memory cache of the same run, or from
the on-disk blob alone with an empty cache as on a later launch — yields
the record unchanged, with identical scopes, tokens and expiry, since the
pickled blob keeps every field. -/
theorem credential_store_round_trip (env : Env) (c : Credential) (p : String)
    (s : AuthState) (hsave : env.saveOk = true) :
    (load_credentials p (save_credentials env c p s).2).1 = some c
    ∧ (load_credentials p
        { token_cache := [],
          disk := (save_credentials env c p s).2.disk }).1 = some c
    ∧ pickleLoad (pickleDump c) = c := by
  rw [save_state env c p s hsave]
  refine ⟨?_, ?_, pickle_round_trip c⟩
  · rw [load_of_cache p _ c (assocGet_set_self p c s.token_cache)]
  · have h1 : assocGet p ([] : List (String × Credential)) = none := rfl
    have h2 : assocGet p (assocSet p (some (pickleDump c)) s.disk)
        = some (some (pickleDump c)) := assocGet_set_self p _ s.disk
    simp [load_credentials, h1, h2, pickle_round_trip]

/-- Witness for C8 at a concrete credential and key. -/
theorem credential_store_round_trip_witness :
    (load_credentials "k"
        (save_credentials baseEnv validCred "k" emptyState).2).1
        = some validCred
    ∧ (load_credentials "k"
        { token_cache := [],
          disk := (save_credentials baseEnv validCred "k"
                    emptyState).2.disk }).1 = some validCred
    ∧ pickleLoad (pickleDump validCred) = validCred :=
  credential_store_round_trip baseEnv validCred "k" emptyState rfl

/-! ### C9 -/

theorem check_any_false (env : Env) (u : String) (s : AuthState)
    (ha : s.disk.any
        (fun q => q.1 == get_token_path env combined_scopes u) = false) :
    check_saved_credentials env u s = ⟨false, s, []⟩ := by
  unfold check_saved_credentials
  rw [ha]
  rfl

theorem check_any_true (env : Env) (u : String) (s : AuthState)
    (ha : s.disk.any
        (fun q => q.1 == get_token_path env combined_scopes u) = true) :
    check_saved_credentials env u s
      = check_from env (get_token_path env combined_scopes u)
          (load_credentials (get_token_path env combined_scopes u) s) := by
  unfold check_saved_credentials
  rw [ha]
  rfl

/-- C9: the probe `check_saved_credentials` is non-interactive: its trace
never contains an interactive consent flow on any path, and it returns true
only when the load step yields a credential that is valid or is expired with
a refresh token and a succeeding refresh exchange. -/
theorem check_noninteractive_and_sound (env : Env) (u : String)
    (s : AuthState) :
    countFlows (check_saved_credentials env u s).trace = 0
    ∧ ((check_saved_credentials env u s).ok = true →
        ∃ c, (load_credentials (get_token_path env combined_scopes u) s).1
              = some c
          ∧ (c.valid env.now = true
             ∨ (c.expired env.now = true ∧ c.refresh_token.isSome = true
                ∧ (env.refreshResult c).isSome = true))) := by
  cases ha : s.disk.any
      (fun q => q.1 == get_token_path env combined_scopes u) with
  | false =>
    rw [check_any_false env u s ha]
    exact ⟨rfl, fun h => absurd h (by simp)⟩
  | true =>
    rw [check_any_true env u s ha]
    rcases hl : load_credentials (get_token_path env combined_scopes u) s
      with ⟨c?, s0⟩
    cases c? with
    | none => exact ⟨rfl, fun h => absurd h (by simp [check_from])⟩
    | some c =>
      by_cases hv : c.valid env.now = true
      · refine ⟨by simp [check_from, hv, countFlows], fun _ => ?_⟩
        exact ⟨c, rfl, Or.inl hv⟩
      · by_cases hcond : (c.expired env.now && c.refresh_token.isSome) = true
        · cases hrr : env.refreshResult c with
          | some c2 =>
            refine ⟨by simp [check_from, hv, hcond, hrr, countFlows],
                    fun _ => ?_⟩
            have hsplit : c.expired env.now = true
                ∧ c.refresh_token.isSome = true := by simpa using hcond
            exact ⟨c, rfl,
                   Or.inr ⟨hsplit.1, hsplit.2, by rw [hrr]; rfl⟩⟩
          | none =>
            refine ⟨by simp [check_from, hv, hcond, hrr, countFlows],
                    fun h => ?_⟩
            exact absurd h (by simp [check_from, hv, hcond, hrr])
        · refine ⟨by simp [check_from, hv, hcond, countFlows], fun h => ?_⟩
          exact absurd h (by simp [check_from, hv, hcond])

/-- A stored valid credential, so that the concrete probe answers true. -/
def c9State : AuthState :=
  { token_cache := [],
    disk := [(get_token_path baseEnv combined_scopes "default",
              some (pickleDump validCred))] }

/-- Witness for C9 at a concrete state with a stored valid credential. -/
theorem check_noninteractive_and_sound_witness :
    countFlows (check_saved_credentials baseEnv "default" c9State).trace = 0
    ∧ ((check_saved_credentials baseEnv "default" c9State).ok = true →
        ∃ c, (load_credentials
                (get_token_path baseEnv combined_scopes "default")
                c9State).1 = some c
          ∧ (c.valid baseEnv.now = true
             ∨ (c.expired baseEnv.now = true
                ∧ c.refresh_token.isSome = true
                ∧ (baseEnv.refreshResult c).isSome = true))) :=
  check_noninteractive_and_sound baseEnv "default" c9State

/-! ### C10 -/

/-- C10: the probe `check_saved_credentials` takes no scope-set parameter and consults
only the token file stored under the key of the combined YouTube-plus-Sheets
scope set: when no disk entry carries that key — whatever credentials are
stored under other scope sets' keys — the probe returns false. -/
theorem check_consults_only_combined_key (env : Env) (u : String)
    (s : AuthState)
    (hdisk : ∀ e ∈ s.disk, e.1 ≠ get_token_path env combined_scopes u) :
    (check_saved_credentials env u s).ok = false := by
  have h : assocGet (get_token_path env combined_scopes u) s.disk = none :=
    (assocGet_eq_none_iff _ _).mpr hdisk
  rw [check_false_of_no_disk env u s h]

/-- A run whose hash separates the combined join from every other string, so
the YouTube-only key differs from the combined key. -/
def c10Env : Env :=
  { baseEnv with
    pyHash := fun t => if t == joinScopes combined_scopes then 1 else 0 }

/-- A valid credential stored under the YouTube-only key. -/
def c10State : AuthState :=
  { token_cache := [],
    disk := [(get_token_path c10Env YOUTUBE_SCOPES "default",
              some (pickleDump validCred))] }

/-- Witness for C10: a usable credential stored under the YouTube-only key
does not make the probe answer true. -/
theorem check_consults_only_combined_key_witness :
    (∀ e ∈ c10State.disk,
        e.1 ≠ get_token_path c10Env combined_scopes "default")
    ∧ (check_saved_credentials c10Env "default" c10State).ok = false :=
  ⟨by decide,
   check_consults_only_combined_key c10Env "default" c10State (by decide)⟩

end ClipsUploader
